import Mathlib

/-
Verification of the progress-estimator, progress-renderer and pipeline-driver
logic of generate-llvm-docset.py.

Modelling conventions:
- Python floats are modelled as exact rationals.
- Python exceptions are modelled with the Except monad; the error type PyErr
  lists the exception classes that can actually arise in the modelled code.
- Terminal output of one call is returned as a String next to the new state.
- Filesystem and subprocess effects of the pipeline driver are modelled as an
  explicit action list (FsAction), since the source only logs, removes,
  downloads, extracts or regenerates artifacts at those points.
-/

/-- Exception classes that the modelled fragments of the script can raise. -/
inductive PyErr where
  | valueError
  | zeroDivisionError
  | indexError
  deriving DecidableEq

/-- Python int() applied to a rational: truncation toward zero. -/
def pyint (q : ℚ) : ℤ := if 0 ≤ q then ⌊q⌋ else -⌊-q⌋

/-- Python sequence indexing: one negative wrap-around, IndexError out of range. -/
def pyIndex (l : List Char) (i : ℤ) : Except PyErr Char :=
  let j : ℤ := if i < 0 then i + l.length else i
  if h : 0 ≤ j ∧ j.toNat < l.length then Except.ok (l.get ⟨j.toNat, h.2⟩)
  else Except.error PyErr.indexError

/-- Decimal digit character for d mod 10. -/
def decDigit (d : ℕ) : Char := Char.ofNat (48 + d % 10)

/-- Decimal digits of a natural number, with explicit fuel (fuel n + 1 always
suffices because the argument strictly decreases under division by 10). -/
def natDigitsAux : ℕ → ℕ → List Char
  | 0, _ => []
  | fuel + 1, n =>
    if n < 10 then [decDigit n] else natDigitsAux fuel (n / 10) ++ [decDigit (n % 10)]

/-- Decimal rendering of a natural number. -/
def natToString (n : ℕ) : String := String.mk (natDigitsAux (n + 1) n)

/-- Decimal rendering of an integer. -/
def intToString (z : ℤ) : String :=
  if z < 0 then "-" ++ natToString z.natAbs else natToString z.toNat

/-- Round a rational to the nearest integer, ties to even: the rounding used
when Python formats a float with two decimal places. -/
def roundHalfEven (q : ℚ) : ℤ :=
  if q - ⌊q⌋ < 1 / 2 then ⌊q⌋
  else if 1 / 2 < q - ⌊q⌋ then ⌊q⌋ + 1
  else if ⌊q⌋ % 2 = 0 then ⌊q⌋ else ⌊q⌋ + 1

/-- Fixed-point rendering with two decimal places, the model of the Python
format specification used on the percent value in ProgressBar.update. -/
def fmt2 (x : ℚ) : String :=
  let n : ℤ := roundHalfEven (100 * x)
  let m : ℕ := n.natAbs
  (if n < 0 then "-" else "") ++ natToString (m / 100) ++ "." ++
    String.mk [decDigit (m / 10 % 10), decDigit (m % 10)]

/-- The phases tuple of ProgressBar.update, nine characters from empty cell to
full block. -/
def phasesList : List Char := [' ', '▏', '▎', '▍', '▌', '▋', '▊', '▉', '█']

/-- phases with index -1: the full-block character. -/
def fullBlock : Char := '█'

/-- The HIDE_CURSOR escape sequence of ProgressBar. -/
def hideCursorSeq : String := "\x1b[?25l"

/-- The SHOW_CURSOR escape sequence of ProgressBar. -/
def showCursorSeq : String := "\x1b[?25h"

/-- State of a ProgressBar object: self.index (int, starts at 0) and self.max
(None until start is called, then a float). -/
structure PBState where
  index : ℕ
  max : Option ℚ
  deriving DecidableEq

/-- ProgressBar.started: whether self.max is not None. -/
def pbStarted (s : PBState) : Bool := s.max.isSome

/-- ProgressBar.progress: 0 when not started, otherwise min of 1 and
index divided by max; division by a zero max raises ZeroDivisionError. -/
def pbProgressE (s : PBState) : Except PyErr ℚ :=
  match s.max with
  | none => Except.ok 0
  | some m =>
    if m = 0 then Except.error PyErr.zeroDivisionError
    else Except.ok (min 1 ((s.index : ℚ) / m))

/-- ProgressBar.percent: progress times 100. -/
def pbPercentE (s : PBState) : Except PyErr ℚ :=
  (pbProgressE s).map (fun p => p * 100)

/-- num_fill in ProgressBar.update: int of (width times progress), width 32. -/
def segNumFillI (p : ℚ) : ℤ := pyint (32 * p)

/-- phase in ProgressBar.update: int of the fractional part of filled_len
times the number of phases (9). -/
def segPhaseI (p : ℚ) : ℤ := pyint ((32 * p - segNumFillI p) * 9)

/-- num_empty in ProgressBar.update: width minus num_fill. -/
def segNumEmptyI (p : ℚ) : ℤ := 32 - segNumFillI p

/-- The bar segment built in ProgressBar.update: num_fill full blocks, then
the phase character when phase is positive, then the padding spaces. -/
def pbBarSegmentE (p : ℚ) : Except PyErr String :=
  (if 0 < segPhaseI p then (pyIndex phasesList (segPhaseI p)).map (fun c => [c])
   else Except.ok []).map
    (fun current =>
      String.mk (List.replicate (segNumFillI p).toNat fullBlock ++ current ++
        List.replicate (max 0 (segNumEmptyI p - current.length)).toNat ' '))

/-- The line built in ProgressBar.update from a progress value p. -/
def pbLineE (p : ℚ) : Except PyErr String :=
  (pbBarSegmentE p).map
    (fun seg => "Progress: |" ++ seg ++ "| " ++ fmt2 (p * 100) ++ "%")

/-- ProgressBar.update via writeln: the text written to the terminal, namely
the clear-line escape followed by the bar line; no newline is printed. -/
def pbUpdateE (s : PBState) : Except PyErr String :=
  match pbProgressE s with
  | Except.error e => Except.error e
  | Except.ok p => (pbLineE p).map (fun l => "\r\x1b[K" ++ l)

/-- ProgressBar.finish: an empty print emits one newline, then the
SHOW_CURSOR escape is printed without a newline. -/
def pbFinishOutput : String := "\n" ++ showCursorSeq

/-- Whether a string ends with a line-feed character. -/
def endsWithLF (s : String) : Bool :=
  match s.data.getLast? with
  | some c => c == '\n'
  | none => false

/-- Leading run of decimal digits of a character list, and the remainder. -/
def takeDigits : List Char → List Char × List Char
  | [] => ([], [])
  | c :: cs =>
    if c.isDigit then
      let r := takeDigits cs
      (c :: r.1, r.2)
    else ([], c :: cs)

/-- Value of a list of decimal digit characters. -/
def digitsToNat (ds : List Char) : ℕ :=
  ds.foldl (fun acc c => 10 * acc + (c.toNat - 48)) 0

/-- The literal part of the nodes pattern that must follow the digits. -/
def nodesSuffix : List Char := (" nodes)").toList

/-- Leftmost match of the regular expression used by ProgressTracker: an
opening parenthesis, one or more decimal digits, then the literal text
of nodesSuffix; returns the number captured by the digit group. -/
def findNodes : List Char → Option ℕ
  | [] => none
  | c :: cs =>
    if c = '(' then
      match takeDigits cs with
      | ([], _) => findNodes cs
      | (ds, rest) =>
        if nodesSuffix.isPrefixOf rest then some (digitsToNat ds) else findNodes cs
    else findNodes cs

/-- re.search of the nodes pattern over one line. -/
def trackerFindNodes (line : String) : Option ℕ := findNodes line.toList

/-- ProgressBar.start: store the total as a float and redraw. -/
def pbStartE (s : PBState) (m : ℕ) : Except PyErr (PBState × String) :=
  (pbUpdateE ⟨s.index, some (m : ℚ)⟩).map (fun out => (⟨s.index, some (m : ℚ)⟩, out))

/-- ProgressBar.next: increment the index and redraw. -/
def pbNextE (s : PBState) : Except PyErr (PBState × String) :=
  (pbUpdateE ⟨s.index + 1, s.max⟩).map (fun out => (⟨s.index + 1, s.max⟩, out))

/-- Body of the try block of ProgressTracker when called on one line:
before the total is known, search the line for the nodes pattern and start
the bar on a match, otherwise return; once started, advance the bar on every
delivered line, whatever its content. -/
def trackerStepRawE (s : PBState) (line : String) : Except PyErr (PBState × String) :=
  if pbStarted s then pbNextE s
  else
    match trackerFindNodes line with
    | some m => pbStartE s m
    | none => Except.ok (s, "")

/-- ProgressTracker called on one line, with the surrounding handler that
catches ValueError only (the int conversion of a digit group cannot in fact
raise it, and no other exception class is caught). -/
def trackerStepE (s : PBState) (line : String) : Except PyErr (PBState × String) :=
  match trackerStepRawE s line with
  | Except.error PyErr.valueError => Except.ok (s, "")
  | r => r

/-- The tracker step together with the wall-clock arrival time of the sample.
The source call receives only the line and never reads a clock, so the
timestamp argument is unread; the definition makes the absence of any time
dependence expressible. -/
def trackerStepTimedE (s : PBState) (line : String) (_now : ℚ) :
    Except PyErr (PBState × String) :=
  trackerStepE s line

/-- Run the tracker over a list of lines, returning the final state. -/
def trackerRunE (s : PBState) : List String → Except PyErr PBState
  | [] => Except.ok s
  | l :: ls =>
    match trackerStepE s l with
    | Except.error e => Except.error e
    | Except.ok r => trackerRunE r.1 ls

/-- Run the tracker over timestamped lines, returning the final state. -/
def trackerRunTimedE (s : PBState) : List (String × ℚ) → Except PyErr PBState
  | [] => Except.ok s
  | sample :: rest =>
    match trackerStepTimedE s sample.1 sample.2 with
    | Except.error e => Except.error e
    | Except.ok r => trackerRunTimedE r.1 rest

/-- Run the tracker over a list of lines, returning the state after each line. -/
def trackerStatesE (s : PBState) : List String → Except PyErr (List PBState)
  | [] => Except.ok []
  | l :: ls =>
    match trackerStepE s l with
    | Except.error e => Except.error e
    | Except.ok r => (trackerStatesE r.1 ls).map (fun rest => r.1 :: rest)

/-- Observation function: the percent value of a state on which
ProgressBar.percent is defined (for a state with a zero total the source
raises instead; that case is excluded wherever this function is used). -/
def pbPercentQ (s : PBState) : ℚ :=
  match s.max with
  | none => 0
  | some m => if m = 0 then 0 else min 1 ((s.index : ℚ) / m) * 100

/-- Filesystem and subprocess effects performed by the pipeline steps, in
order of execution. -/
inductive FsAction where
  | log (msg : String) (color : String)
  | removeFile (path : String)
  | removeTree (path : String)
  | download (url : String) (dest : String)
  | extractArchive (archive : String)
  | runDoxygen (cfg : String)
  | buildDocset (path : String)
  | runDocsetutilIndex (docset : String)
  deriving DecidableEq

/-- DocSetGenerator.log: emits nothing when the quiet flag is set. -/
def logIf (quiet : Bool) (msg color : String) : List FsAction :=
  if quiet then [] else [FsAction.log msg color]

/-- DocSetGenerator.download_llvm_tarball: actions performed and the returned
tarball path, as a function of the clean flag and whether the tarball already
exists on disk. -/
def download_llvm_tarball (quiet clean : Bool) (version : String)
    (tarballExists : Bool) : List FsAction × String :=
  let tarball := "llvm-" ++ version ++ ".src.tar.xz"
  let url := "https://github.com/llvm/llvm-project/releases/download/llvmorg-" ++
    version ++ "/" ++ tarball
  let dl := logIf quiet ("Downloading " ++ tarball ++ " from " ++ url ++ "...") "magenta" ++
    [FsAction.download url tarball]
  if tarballExists then
    if clean then
      (logIf quiet ("Deleting " ++ tarball ++ "...") "cyan" ++
        [FsAction.removeFile tarball] ++ dl, tarball)
    else (logIf quiet ("Using existing tarball " ++ tarball ++ "...") "cyan", tarball)
  else (dl, tarball)

/-- DocSetGenerator.extract_llvm_tarball: actions performed and the returned
source directory (the KeyboardInterrupt cleanup path is not modelled). -/
def extract_llvm_tarball (quiet clean : Bool) (version : String)
    (tarballPath : String) (srcDirExists : Bool) : List FsAction × String :=
  let srcDir := "llvm-" ++ version ++ ".src"
  let ex := logIf quiet ("Extracting " ++ tarballPath ++ " into " ++ srcDir ++ "...") "magenta" ++
    [FsAction.extractArchive tarballPath]
  if srcDirExists then
    if clean then
      (logIf quiet ("Deleting " ++ srcDir ++ "...") "cyan" ++
        [FsAction.removeTree srcDir] ++ ex, srcDir)
    else (logIf quiet ("Using existing LLVM source in " ++ srcDir ++ "...") "cyan", srcDir)
  else (ex, srcDir)

/-- DocSetGenerator.run_doxygen: actions performed and the returned HTML
directory; the html output path of the default configuration file location. -/
def run_doxygen (quiet clean : Bool) (doxygenPath cfgPath : String)
    (htmlExists : Bool) : List FsAction × String :=
  let htmlDoc := "doxygen/html"
  let gen := logIf quiet "Generating HTML documentation (this may take some time)..." "magenta" ++
    logIf quiet ("Running " ++ doxygenPath ++ " " ++ cfgPath) "blue" ++
    [FsAction.runDoxygen cfgPath]
  if htmlExists then
    if clean then
      (logIf quiet ("Deleting " ++ htmlDoc ++ "...") "cyan" ++
        [FsAction.removeTree htmlDoc] ++ gen, htmlDoc)
    else (logIf quiet ("Using existing HTML documentation in " ++ htmlDoc ++ "...") "cyan", htmlDoc)
  else (gen, htmlDoc)

/-- DocSetGenerator.generate_docset_from_html: actions performed and the
returned docset path. In the clean branch the source only logs the deletion
message and removes nothing before regenerating; the bundle construction
(directory creation and file copies) is abstracted into buildDocset, after
which docsetutil runs and the two staging XML files are unlinked. -/
def generate_docset_from_html (quiet clean : Bool) (docsetExists : Bool) :
    List FsAction × String :=
  let docset := "LLVM.docset"
  let create := logIf quiet ("Creating " ++ docset ++ " (this may take some time)...") "magenta" ++
    [FsAction.buildDocset docset, FsAction.runDocsetutilIndex docset,
     FsAction.removeFile (docset ++ "/Contents/Resources/Nodes.xml"),
     FsAction.removeFile (docset ++ "/Contents/Resources/Tokens.xml")]
  if docsetExists then
    if clean then
      (logIf quiet ("Deleting " ++ docset ++ "...") "cyan" ++ create, docset)
    else (logIf quiet ("Using existing docset in " ++ docset ++ "...") "cyan", docset)
  else (create, docset)

/-- Python truthiness of an optional string: None and the empty string are
falsy. -/
def optTruthy : Option String → Bool
  | none => false
  | some s => !s.isEmpty

/-- Tool lookup of DocSetGenerator.init for one tool: use the provided path
when truthy, otherwise the shutil.which result; raise ToolNotFoundError (the
error message) when the outcome is falsy or the path does not exist. -/
def resolveTool (provided whichResult : Option String) (pathExists : String → Bool)
    (err : String) : Except String String :=
  let p : Option String := if optTruthy provided then provided else whichResult
  match p with
  | none => Except.error err
  | some s =>
    if s.isEmpty then Except.error err
    else if pathExists s then Except.ok s else Except.error err

/-- The returncode check after docsetutil runs: a non-zero exit code raises
CalledProcessError carrying the command list and the code. -/
def runDocsetutilCheck (docsetutilPath docset : String) (returncode : ℤ) :
    Except (List String × ℤ) Unit :=
  if returncode = 0 then Except.ok ()
  else Except.error ([docsetutilPath, "index", docset], returncode)

/-- The second line suggested after a subprocess failure. -/
def tryVerboseMsg : String := "Try rerunning with --verbose flag to see what went wrong"

/-- The top-level dispatch of the script: given the outcome of constructing
the generator (which performs the tool lookups) and the outcome of run,
produce the process exit status and the diagnostic lines written to stderr.
On success the script falls off the end of the module with status 0. -/
def pyMain (initRes : Except String Unit) (runRes : Except (List String × ℤ) Unit)
    (verbose : Bool) : ℕ × List String :=
  match initRes with
  | Except.error msg => (1, [msg])
  | Except.ok _ =>
    match runRes with
    | Except.error cmdCode =>
      (1, (String.intercalate " " cmdCode.1 ++ " failed with exit code " ++
        intToString cmdCode.2) :: (if verbose then [] else [tryVerboseMsg]))
    | Except.ok _ => (0, [])

lemma pyint_of_nonneg {q : ℚ} (h : 0 ≤ q) : pyint q = ⌊q⌋ := if_pos h

lemma str_data_append (a b : String) : (a ++ b).data = a.data ++ b.data := rfl

lemma phasesList_length : phasesList.length = 9 := rfl

lemma segNumFillI_eq_floor {p : ℚ} (h0 : 0 ≤ p) : segNumFillI p = ⌊32 * p⌋ := by
  unfold segNumFillI
  exact pyint_of_nonneg (by positivity)

lemma toNat_max_zero (x : ℤ) : (max 0 x).toNat = x.toNat := by
  rcases le_total 0 x with h | h
  · rw [max_eq_right h]
  · rw [max_eq_left h]
    omega

lemma barSegment_spec (p : ℚ) (h0 : 0 ≤ p) (h1 : p ≤ 1) :
    ∃ mid : List Char, mid.length ≤ 1 ∧ (∀ c ∈ mid, c ∈ phasesList) ∧
      (segNumFillI p).toNat + mid.length ≤ 32 ∧
      pbBarSegmentE p = Except.ok (String.mk
        (List.replicate (segNumFillI p).toNat fullBlock ++ mid ++
          List.replicate (32 - (segNumFillI p).toNat - mid.length) ' ')) := by
  have hF0 : (0 : ℚ) ≤ 32 * p := by positivity
  have hF32 : 32 * p ≤ 32 := by linarith
  have hnf := segNumFillI_eq_floor h0
  have hnf0 : 0 ≤ segNumFillI p := by
    rw [hnf]
    exact Int.floor_nonneg.mpr hF0
  have hnfle : (segNumFillI p : ℚ) ≤ 32 * p := by
    rw [hnf]
    exact Int.floor_le _
  have hlt : 32 * p < (segNumFillI p : ℚ) + 1 := by
    rw [hnf]
    exact_mod_cast Int.lt_floor_add_one (32 * p)
  have hnf32 : segNumFillI p ≤ 32 := by
    have h : (segNumFillI p : ℚ) ≤ 32 := le_trans hnfle hF32
    exact_mod_cast h
  have hfrac0 : (0 : ℚ) ≤ 32 * p - segNumFillI p := by linarith
  have hfrac1 : 32 * p - segNumFillI p < 1 := by linarith
  have hph : segPhaseI p = ⌊(32 * p - segNumFillI p) * 9⌋ := by
    unfold segPhaseI
    exact pyint_of_nonneg (mul_nonneg hfrac0 (by norm_num))
  have hph0 : 0 ≤ segPhaseI p := by
    rw [hph]
    exact Int.floor_nonneg.mpr (mul_nonneg hfrac0 (by norm_num))
  have hph9 : segPhaseI p < 9 := by
    rw [hph]
    apply Int.floor_lt.mpr
    push_cast
    nlinarith
  by_cases hpos : 0 < segPhaseI p
  · have hnf31 : segNumFillI p ≤ 31 := by
      by_contra hg
      push_neg at hg
      have h32 : segNumFillI p = 32 := le_antisymm hnf32 (by omega)
      have hge : (32 : ℚ) ≤ 32 * p := by
        have := hnfle
        rw [h32] at this
        exact_mod_cast this
      have hEq : 32 * p = 32 := le_antisymm hF32 hge
      rw [hph, hEq, h32] at hpos
      norm_num at hpos
    have hlen : (segPhaseI p).toNat < phasesList.length := by
      rw [phasesList_length]
      omega
    have hidx : pyIndex phasesList (segPhaseI p) =
        Except.ok (phasesList.get ⟨(segPhaseI p).toNat, hlen⟩) := by
      unfold pyIndex
      simp only [if_neg (not_lt.mpr hph0)]
      rw [dif_pos ⟨hph0, hlen⟩]
    refine ⟨[phasesList.get ⟨(segPhaseI p).toNat, hlen⟩],
      by simp, ?_, by simp only [List.length_singleton]; omega, ?_⟩
    · intro c hc
      simp only [List.mem_singleton] at hc
      rw [hc]
      exact List.get_mem _ _ _
    · have hc1 : (max 0 (segNumEmptyI p -
          (([phasesList.get ⟨(segPhaseI p).toNat, hlen⟩] : List Char).length : ℤ))).toNat =
          32 - (segNumFillI p).toNat -
            ([phasesList.get ⟨(segPhaseI p).toNat, hlen⟩] : List Char).length := by
        rw [toNat_max_zero]
        unfold segNumEmptyI
        simp only [List.length_singleton]
        omega
      unfold pbBarSegmentE
      rw [if_pos hpos, hidx]
      simp only [Except.map]
      rw [hc1]
  · refine ⟨[], by simp, by simp, by simp only [List.length_nil]; omega, ?_⟩
    have hc0 : (max 0 (segNumEmptyI p - (([] : List Char).length : ℤ))).toNat =
        32 - (segNumFillI p).toNat - ([] : List Char).length := by
      rw [toNat_max_zero]
      unfold segNumEmptyI
      simp only [List.length_nil]
      omega
    unfold pbBarSegmentE
    rw [if_neg hpos]
    simp only [Except.map]
    rw [hc0]

lemma pbProgressE_some (i : ℕ) (m : ℚ) (hm : 0 < m) :
    pbProgressE ⟨i, some m⟩ = Except.ok (min 1 ((i : ℚ) / m)) := by
  simp [pbProgressE, hm.ne']

lemma min_progress_nonneg (i : ℕ) (m : ℚ) (hm : 0 < m) : 0 ≤ min 1 ((i : ℚ) / m) :=
  le_min zero_le_one (div_nonneg (Nat.cast_nonneg i) hm.le)

lemma pbUpdateE_ok_of_seg {p : ℚ} {seg : String} (h : pbBarSegmentE p = Except.ok seg)
    (s : PBState) (hp : pbProgressE s = Except.ok p) :
    pbUpdateE s = Except.ok
      ("\r\x1b[K" ++ ("Progress: |" ++ seg ++ "| " ++ fmt2 (p * 100) ++ "%")) := by
  unfold pbUpdateE pbLineE
  simp only [hp, h, Except.map]

lemma pbUpdateE_isOk (i : ℕ) (m : ℚ) (hm : 0 < m) :
    ∃ out, pbUpdateE ⟨i, some m⟩ = Except.ok out := by
  obtain ⟨mid, -, -, -, hseg⟩ :=
    barSegment_spec (min 1 ((i : ℚ) / m)) (min_progress_nonneg i m hm) (min_le_left _ _)
  exact ⟨_, pbUpdateE_ok_of_seg hseg _ (pbProgressE_some i m hm)⟩

lemma trackerStepE_started (i : ℕ) (m : ℚ) (hm : 0 < m) (line : String) :
    ∃ out, trackerStepE ⟨i, some m⟩ line = Except.ok (⟨i + 1, some m⟩, out) := by
  obtain ⟨out, hout⟩ := pbUpdateE_isOk (i + 1) m hm
  refine ⟨out, ?_⟩
  unfold trackerStepE trackerStepRawE pbNextE pbStarted
  simp [hout, Except.map]

lemma trackerStepE_not_started_none (s : PBState) (line : String) (h1 : s.max = none)
    (h2 : trackerFindNodes line = none) : trackerStepE s line = Except.ok (s, "") := by
  unfold trackerStepE trackerStepRawE pbStarted
  simp [h1, h2]

lemma trackerStepE_start (s : PBState) (line : String) (mn : ℕ) (h1 : s.max = none)
    (h2 : trackerFindNodes line = some mn) (hm : 0 < mn) :
    ∃ out, trackerStepE s line = Except.ok (⟨s.index, some (mn : ℚ)⟩, out) := by
  have hmq : (0 : ℚ) < mn := by exact_mod_cast hm
  obtain ⟨out, hout⟩ := pbUpdateE_isOk s.index (mn : ℚ) hmq
  refine ⟨out, ?_⟩
  unfold trackerStepE trackerStepRawE pbStartE pbStarted
  simp [h1, h2, hout, Except.map]

lemma trackerStepE_preserves_max (s : PBState) (line : String) (m : ℚ)
    (hm : s.max = some m) (r : PBState × String)
    (h : trackerStepE s line = Except.ok r) : r.1.max = some m := by
  have hst : pbStarted s = true := by simp [pbStarted, hm]
  unfold trackerStepE trackerStepRawE at h
  rw [hst] at h
  simp only [if_true] at h
  unfold pbNextE at h
  cases hu : pbUpdateE ⟨s.index + 1, s.max⟩ with
  | error e =>
    rw [hu] at h
    cases e with
    | valueError =>
      simp only [Except.map] at h
      cases h
      exact hm
    | zeroDivisionError => simp [Except.map] at h
    | indexError => simp [Except.map] at h
  | ok out =>
    rw [hu] at h
    simp only [Except.map] at h
    cases h
    exact hm

lemma trackerRunE_preserves_max (m : ℚ) :
    ∀ (lines : List String) (s : PBState), s.max = some m →
      ∀ s', trackerRunE s lines = Except.ok s' → s'.max = some m := by
  intro lines
  induction lines with
  | nil =>
    intro s hs s' h
    unfold trackerRunE at h
    cases h
    exact hs
  | cons l ls ih =>
    intro s hs s' h
    unfold trackerRunE at h
    cases hstep : trackerStepE s l with
    | error e => rw [hstep] at h; cases h
    | ok r =>
      rw [hstep] at h
      exact ih r.1 (trackerStepE_preserves_max s l m hs r hstep) s' h

lemma trackerStatesE_started (m : ℚ) (hm : 0 < m) :
    ∀ (ls : List String) (i : ℕ),
      trackerStatesE ⟨i, some m⟩ ls = Except.ok
        ((List.range ls.length).map (fun k => (⟨i + 1 + k, some m⟩ : PBState))) := by
  intro ls
  induction ls with
  | nil => intro i; rfl
  | cons l ls ih =>
    intro i
    obtain ⟨out, hstep⟩ := trackerStepE_started i m hm l
    unfold trackerStatesE
    rw [hstep]
    show Except.map (fun rest => (⟨i + 1, some m⟩ : PBState) :: rest)
        (trackerStatesE ⟨i + 1, some m⟩ ls) = _
    rw [ih (i + 1)]
    simp only [Except.map, List.length_cons]
    congr 1
    rw [List.range_succ_eq_map]
    simp only [List.map_cons, List.map_map, Function.comp]
    congr 1
    apply List.map_congr_left
    intro k _
    congr 1
    omega

lemma trackerRunTimed_eq : ∀ (samples : List (String × ℚ)) (s : PBState),
    trackerRunTimedE s samples = trackerRunE s (samples.map Prod.fst) := by
  intro samples
  induction samples with
  | nil => intro s; rfl
  | cons a rest ih =>
    intro s
    simp only [trackerRunTimedE, trackerRunE, trackerStepTimedE, List.map_cons]
    cases h : trackerStepE s a.1 with
    | error e => simp [h]
    | ok r =>
      simp only [h]
      exact ih r.1


lemma endsWithLF_append_percent (a y : String) : endsWithLF (a ++ (y ++ "%")) = false := by
  unfold endsWithLF
  have h1 : ("%" : String).data = ['%'] := rfl
  rw [str_data_append, str_data_append, h1, ← List.append_assoc, List.getLast?_concat]
  rfl

lemma roundHalfEven_intCast (n : ℤ) : roundHalfEven (n : ℚ) = n := by
  unfold roundHalfEven
  rw [Int.floor_intCast]
  rw [if_pos]
  norm_num

lemma fmt2_hundred : fmt2 100 = "100.00" := by
  have h : (100 : ℚ) * 100 = ((10000 : ℤ) : ℚ) := by norm_num
  unfold fmt2
  rw [h, roundHalfEven_intCast]
  decide

/-- Claim C1 (counterexample): the claim asserts that a sample arriving at
least 5 seconds after the previous one triggers a recomputation of the
remaining-time estimate and an update of the last-sample-time, while a sample
arriving earlier reuses the previous estimate unchanged.  In the code the
estimator carries no timestamps and no remaining-time estimate at all: with
the total 10 already known, the same line delivered 6 seconds after the
previous sample and half a second after it produces the identical result,
so no recomputation or last-sample-time update distinguishing the two
timings takes place. -/
theorem c1_counterexample :
    trackerStepTimedE ⟨0, some (10 : ℚ)⟩ "1: CXCompilationDatabase.h" 6 =
      trackerStepTimedE ⟨0, some (10 : ℚ)⟩ "1: CXCompilationDatabase.h" (1 / 2) ∧
    (∃ out, trackerStepTimedE ⟨0, some (10 : ℚ)⟩ "1: CXCompilationDatabase.h" 6 =
      Except.ok (⟨1, some (10 : ℚ)⟩, out)) :=
  ⟨rfl, trackerStepE_started 0 10 (by norm_num) _⟩

/-- Claim C1 (amended): the tracked estimator maintains no last-sample-time
and no remaining-time estimate; its step is a pure function of the current
state and the delivered line, so the result of a sample is identical for any
two arrival times, and over a whole timed run the timestamps are ignored.
In particular the (nonexistent) remaining-time display trivially never
changes between samples less than 5 seconds apart. -/
theorem c1_amended :
    (∀ (s : PBState) (line : String) (t1 t2 : ℚ),
      trackerStepTimedE s line t1 = trackerStepTimedE s line t2) ∧
    (∀ (s : PBState) (samples : List (String × ℚ)),
      trackerRunTimedE s samples = trackerRunE s (samples.map Prod.fst)) :=
  ⟨fun _ _ _ _ => rfl, fun s samples => trackerRunTimed_eq samples s⟩

/-- Claim C3: once the total item count has been extracted (max is set), no
later line changes it: every successful run of the tracker from a state with
total m ends in a state with total m, whatever the lines contain, including
lines matching the nodes pattern with a different number. -/
theorem c3_total_immutable (s : PBState) (m : ℚ) (hm : s.max = some m)
    (lines : List String) (s' : PBState)
    (h : trackerRunE s lines = Except.ok s') : s'.max = some m :=
  trackerRunE_preserves_max m lines s hm s' h

/-- Claim C3 (witness): with the total fixed at 500, feeding a later line
that matches the nodes pattern with the different number 300 leaves the
total at 500. -/
theorem c3_witness :
    trackerRunE ⟨0, some (500 : ℚ)⟩ ["(300 nodes)"] = Except.ok ⟨1, some (500 : ℚ)⟩ ∧
    (⟨1, some (500 : ℚ)⟩ : PBState).max = some (500 : ℚ) := by
  obtain ⟨out, hstep⟩ := trackerStepE_started 0 (500 : ℚ) (by norm_num) "(300 nodes)"
  have hrun : trackerRunE ⟨0, some (500 : ℚ)⟩ ["(300 nodes)"] =
      Except.ok ⟨1, some (500 : ℚ)⟩ := by
    unfold trackerRunE
    rw [hstep]
    rfl
  exact ⟨hrun, c3_total_immutable ⟨0, some 500⟩ 500 rfl ["(300 nodes)"] ⟨1, some 500⟩ hrun⟩

/-- Claim C4 (counterexample): a line without any leading integer changes
the estimator state once the total is known: the current index advances from
0 to 1, because the tracker advances the bar on every delivered line without
parsing an index from it. -/
theorem c4_counterexample :
    (∃ out, trackerStepE ⟨0, some (10 : ℚ)⟩ "foo bar" =
      Except.ok (⟨1, some (10 : ℚ)⟩, out)) ∧
    (⟨1, some (10 : ℚ)⟩ : PBState).index ≠ (⟨0, some (10 : ℚ)⟩ : PBState).index :=
  ⟨trackerStepE_started 0 10 (by norm_num) _, by decide⟩

/-- Claim C4 (amended): before the total is known, a line in which the nodes
pattern does not occur produces no estimator state change, no output and no
exception; once a positive total is known, every delivered line, whether or
not it starts with a parseable integer, advances the current index by exactly
one and raises no exception. -/
theorem c4_amended :
    (∀ (s : PBState) (line : String), s.max = none → trackerFindNodes line = none →
      trackerStepE s line = Except.ok (s, "")) ∧
    (∀ (i mn : ℕ) (line : String), 0 < mn →
      ∃ out, trackerStepE ⟨i, some (mn : ℚ)⟩ line =
        Except.ok (⟨i + 1, some (mn : ℚ)⟩, out)) :=
  ⟨fun s line h1 h2 => trackerStepE_not_started_none s line h1 h2,
   fun i mn line hm => trackerStepE_started i (mn : ℚ) (by exact_mod_cast hm) line⟩

/-- Claim C4 (witness): concrete instances of both amended parts on a line
without a leading integer. -/
theorem c4_witness :
    trackerStepE ⟨0, none⟩ "foo bar" = Except.ok (⟨0, none⟩, "") ∧
    (∃ out, trackerStepE ⟨0, some ((10 : ℕ) : ℚ)⟩ "foo bar" =
      Except.ok (⟨0 + 1, some ((10 : ℕ) : ℚ)⟩, out)) :=
  ⟨c4_amended.1 ⟨0, none⟩ "foo bar" rfl (by decide),
   c4_amended.2 0 10 "foo bar" (by decide)⟩

/-- Claim C9 (counterexample): a fragment whose nodes pattern captures the
number 0 crashes the estimator: starting the bar with a zero total makes the
redraw divide by zero, and the handler catches only ValueError, so the
ZeroDivisionError escapes. -/
theorem c9_counterexample :
    trackerStepE ⟨0, none⟩ "(0 nodes)" = Except.error PyErr.zeroDivisionError := by
  have hf : trackerFindNodes "(0 nodes)" = some 0 := by decide
  unfold trackerStepE trackerStepRawE pbStarted
  simp only [hf, Option.isSome, Bool.false_eq_true, if_false]
  unfold pbStartE pbUpdateE pbProgressE
  simp [Except.map]

/-- Claim C9 (amended): for every state whose total is unset or positive and
every delivered fragment, the estimator call returns normally, with the one
exception of a fragment whose nodes-pattern match captures zero while the
total is still unset; ill-formed fragments in particular are ignored without
any exception. -/
theorem c9_amended (i : ℕ) (mo : Option ℚ) (line : String)
    (hmax : mo = none ∨ ∃ mn : ℕ, 0 < mn ∧ mo = some (mn : ℚ))
    (hz : mo = none → trackerFindNodes line ≠ some 0) :
    ∃ r, trackerStepE ⟨i, mo⟩ line = Except.ok r := by
  rcases hmax with h | ⟨mn, hmn, h⟩
  · subst h
    cases hf : trackerFindNodes line with
    | none => exact ⟨(⟨i, none⟩, ""), trackerStepE_not_started_none ⟨i, none⟩ line rfl hf⟩
    | some k =>
      have hk : 0 < k := Nat.pos_of_ne_zero (fun hk0 => hz rfl (hk0 ▸ hf))
      obtain ⟨out, hstep⟩ := trackerStepE_start ⟨i, none⟩ line k rfl hf hk
      exact ⟨_, hstep⟩
  · subst h
    have hq : (0 : ℚ) < mn := by exact_mod_cast hmn
    obtain ⟨out, hstep⟩ := trackerStepE_started i (mn : ℚ) hq line
    exact ⟨_, hstep⟩

/-- Claim C9 (witness): an ordinary item line delivered to a fresh estimator
returns normally. -/
theorem c9_witness : ∃ r, trackerStepE ⟨0, none⟩ "7: processing" = Except.ok r :=
  c9_amended 0 none "7: processing" (Or.inl rfl) (fun _ => by decide)

/-- Claim C5 (counterexample): at current equal to total the rendered update
still carries no trailing line terminator: the bar line for state (1, total
1) ends with the percent sign, refuting that the output ends with a line
terminator exactly when current equals total. -/
theorem c5_counterexample :
    ∃ out, pbUpdateE ⟨1, some (1 : ℚ)⟩ = Except.ok out ∧ endsWithLF out = false := by
  obtain ⟨mid, -, -, -, hseg⟩ :=
    barSegment_spec (min 1 ((1 : ℚ) / 1)) (min_progress_nonneg 1 1 one_pos) (min_le_left _ _)
  exact ⟨_, pbUpdateE_ok_of_seg hseg ⟨1, some 1⟩ (pbProgressE_some 1 1 one_pos),
    endsWithLF_append_percent _ _⟩

/-- Claim C5 (amended): no rendered progress update ends with a line
terminator, whether or not current equals total; the newline is emitted
separately by finish at the end of the tracked run, as the first character
of its output. -/
theorem c5_amended :
    (∀ (s : PBState) (out : String), pbUpdateE s = Except.ok out →
      endsWithLF out = false) ∧
    pbFinishOutput.data.head? = some '\n' := by
  constructor
  · intro s out h
    unfold pbUpdateE at h
    cases hp : pbProgressE s with
    | error e => rw [hp] at h; cases h
    | ok p =>
      rw [hp] at h
      simp only [] at h
      unfold pbLineE at h
      cases hs : pbBarSegmentE p with
      | error e => rw [hs] at h; cases h
      | ok seg =>
        rw [hs] at h
        simp only [Except.map] at h
        injection h with h
        rw [← h]
        exact endsWithLF_append_percent _ _
  · rfl

/-- Claim C5 (witness): the update at current equal to total has no trailing
line feed. -/
theorem c5_witness :
    ∃ out, pbUpdateE ⟨2, some (2 : ℚ)⟩ = Except.ok out ∧ endsWithLF out = false := by
  obtain ⟨out, hout⟩ := pbUpdateE_isOk 2 2 (by norm_num)
  exact ⟨out, hout, c5_amended.1 ⟨2, some 2⟩ out hout⟩

/-- Claim C2: for total t > 0 and 0 <= c <= t, the rendered progress line
shows exactly the percent value 100 times c over t formatted to two decimal
places, and the run of fully-filled bar characters has length the floor of
32 times c over t (followed by at most one partial-phase character and the
padding spaces).  The percent property value itself equals 100 times c over
t exactly, since the clamp at 1 never bites for c at most t. -/
theorem c2_percent_and_fill (c t : ℕ) (ht : 0 < t) (hct : c ≤ t) :
    pbPercentE ⟨c, some (t : ℚ)⟩ = Except.ok (100 * ((c : ℚ) / t)) ∧
    ∃ mid : List Char, mid.length ≤ 1 ∧
      pbUpdateE ⟨c, some (t : ℚ)⟩ = Except.ok
        ("\r\x1b[K" ++ ("Progress: |" ++ String.mk
          (List.replicate (⌊32 * ((c : ℚ) / t)⌋).toNat fullBlock ++ mid ++
            List.replicate (32 - (⌊32 * ((c : ℚ) / t)⌋).toNat - mid.length) ' ') ++
          "| " ++ fmt2 (100 * ((c : ℚ) / t)) ++ "%")) := by
  have htq : (0 : ℚ) < t := by exact_mod_cast ht
  have hle : (c : ℚ) / t ≤ 1 := by
    rw [div_le_one htq]
    exact_mod_cast hct
  have hmin : min 1 ((c : ℚ) / t) = (c : ℚ) / t := min_eq_right hle
  have h0 : (0 : ℚ) ≤ (c : ℚ) / t := div_nonneg (Nat.cast_nonneg c) htq.le
  have hprog : pbProgressE ⟨c, some (t : ℚ)⟩ = Except.ok ((c : ℚ) / t) := by
    rw [pbProgressE_some c t htq, hmin]
  constructor
  · unfold pbPercentE
    rw [hprog]
    simp only [Except.map]
    rw [mul_comm]
  · obtain ⟨mid, hlen, -, -, hseg⟩ := barSegment_spec ((c : ℚ) / t) h0 hle
    have hup := pbUpdateE_ok_of_seg hseg ⟨c, some (t : ℚ)⟩ hprog
    rw [segNumFillI_eq_floor h0, mul_comm ((c : ℚ) / t) 100] at hup
    exact ⟨mid, hlen, hup⟩

/-- Claim C2 (witness): the instance at current 1 of total 3. -/
theorem c2_witness :
    ((0 : ℕ) < 3 ∧ (1 : ℕ) ≤ 3) ∧
    (pbPercentE ⟨1, some ((3 : ℕ) : ℚ)⟩ =
        Except.ok (100 * (((1 : ℕ) : ℚ) / ((3 : ℕ) : ℚ))) ∧
      ∃ mid : List Char, mid.length ≤ 1 ∧
        pbUpdateE ⟨1, some ((3 : ℕ) : ℚ)⟩ = Except.ok
          ("\r\x1b[K" ++ ("Progress: |" ++ String.mk
            (List.replicate (⌊32 * (((1 : ℕ) : ℚ) / ((3 : ℕ) : ℚ))⌋).toNat fullBlock ++
              mid ++
              List.replicate
                (32 - (⌊32 * (((1 : ℕ) : ℚ) / ((3 : ℕ) : ℚ))⌋).toNat - mid.length) ' ') ++
            "| " ++ fmt2 (100 * (((1 : ℕ) : ℚ) / ((3 : ℕ) : ℚ))) ++ "%"))) :=
  ⟨⟨by decide, by decide⟩, c2_percent_and_fill 1 3 (by decide) (by decide)⟩

/-- Claim C10: for every state of the progress bar (not started, or started
with any index and a positive total), the rendered bar segment between the
two pipe delimiters is exactly 32 characters long and consists of the
fully-filled blocks, then at most one partial-phase character drawn from the
phases tuple, then padding spaces. -/
theorem c10_bar_width (i : ℕ) (mo : Option ℕ)
    (hpos : ∀ mn : ℕ, mo = some mn → 0 < mn) :
    ∃ (p : ℚ) (seg : String) (mid : List Char),
      pbProgressE ⟨i, mo.map (fun mn => (mn : ℚ))⟩ = Except.ok p ∧
      pbBarSegmentE p = Except.ok seg ∧
      mid.length ≤ 1 ∧ (∀ c ∈ mid, c ∈ phasesList) ∧
      seg.data = List.replicate (segNumFillI p).toNat fullBlock ++ mid ++
        List.replicate (32 - (segNumFillI p).toNat - mid.length) ' ' ∧
      seg.data.length = 32 := by
  cases mo with
  | none =>
    obtain ⟨mid, hlen, hmem, hsum, hseg⟩ := barSegment_spec 0 le_rfl zero_le_one
    refine ⟨0, _, mid, rfl, hseg, hlen, hmem, rfl, ?_⟩
    simp only [List.length_append, List.length_replicate]
    omega
  | some mn =>
    have hmn : 0 < mn := hpos mn rfl
    have hq : (0 : ℚ) < mn := by exact_mod_cast hmn
    obtain ⟨mid, hlen, hmem, hsum, hseg⟩ :=
      barSegment_spec (min 1 ((i : ℚ) / mn)) (min_progress_nonneg i mn hq) (min_le_left _ _)
    refine ⟨min 1 ((i : ℚ) / mn), _, mid, ?_, hseg, hlen, hmem, rfl, ?_⟩
    · show pbProgressE ⟨i, some ((mn : ℕ) : ℚ)⟩ = Except.ok (min 1 ((i : ℚ) / mn))
      exact pbProgressE_some i mn hq
    · simp only [List.length_append, List.length_replicate]
      omega

/-- Claim C10 (witness): the instance at index 5 with total 10. -/
theorem c10_witness :
    (∀ mn : ℕ, (some 10 : Option ℕ) = some mn → 0 < mn) ∧
    (∃ (p : ℚ) (seg : String) (mid : List Char),
      pbProgressE ⟨5, (some 10 : Option ℕ).map (fun mn => (mn : ℚ))⟩ = Except.ok p ∧
      pbBarSegmentE p = Except.ok seg ∧
      mid.length ≤ 1 ∧ (∀ c ∈ mid, c ∈ phasesList) ∧
      seg.data = List.replicate (segNumFillI p).toNat fullBlock ++ mid ++
        List.replicate (32 - (segNumFillI p).toNat - mid.length) ' ' ∧
      seg.data.length = 32) :=
  ⟨fun mn h => by simp only [Option.some.injEq] at h; omega,
   c10_bar_width 5 (some 10) (fun mn h => by simp only [Option.some.injEq] at h; omega)⟩

/-- Claim C8: feeding a nodes line announcing total m followed by exactly m
item lines through the tracker yields the state sequence with indices 0
through m and total m, whose percent values are monotonically non-decreasing
and end at exactly 100, rendered as 100.00. -/
theorem c8_monotone_percent (m : ℕ) (hm : 0 < m) (l0 : String) (rest : List String)
    (h0 : trackerFindNodes l0 = some m) (hlen : rest.length = m) :
    trackerStatesE ⟨0, none⟩ (l0 :: rest) = Except.ok
      ((List.range (m + 1)).map (fun k => (⟨k, some (m : ℚ)⟩ : PBState))) ∧
    List.Chain' (fun a b => pbPercentQ a ≤ pbPercentQ b)
      ((List.range (m + 1)).map (fun k => (⟨k, some (m : ℚ)⟩ : PBState))) ∧
    (((List.range (m + 1)).map (fun k => (⟨k, some (m : ℚ)⟩ : PBState))).map
      pbPercentQ).getLast? = some 100 ∧
    fmt2 100 = "100.00" := by
  have hq : (0 : ℚ) < m := by exact_mod_cast hm
  refine ⟨?_, ?_, ?_, fmt2_hundred⟩
  · obtain ⟨out, hstep⟩ := trackerStepE_start ⟨0, none⟩ l0 m rfl h0 hm
    unfold trackerStatesE
    rw [hstep]
    show Except.map (fun rest' => (⟨0, some (m : ℚ)⟩ : PBState) :: rest')
        (trackerStatesE ⟨0, some (m : ℚ)⟩ rest) = _
    rw [trackerStatesE_started (m : ℚ) hq rest 0]
    simp only [Except.map, hlen]
    congr 1
    rw [List.range_succ_eq_map]
    simp only [List.map_cons, List.map_map, Function.comp]
    congr 1
    apply List.map_congr_left
    intro k _
    congr 1
    omega
  · rw [List.chain'_map]
    refine (List.chain'_range_succ _ m).mpr ?_
    intro k hk
    simp only [pbPercentQ]
    rw [if_neg hq.ne', if_neg hq.ne']
    have hkk : ((k : ℕ) : ℚ) / m ≤ ((k + 1 : ℕ) : ℚ) / m := by
      apply div_le_div_of_nonneg_right ?_ hq.le
      exact_mod_cast Nat.le_succ k
    exact mul_le_mul_of_nonneg_right (min_le_min (le_refl 1) hkk) (by norm_num)
  · rw [List.map_map, List.range_succ, List.map_append]
    simp only [List.map_singleton]
    rw [List.getLast?_concat]
    simp only [Function.comp, pbPercentQ]
    rw [if_neg hq.ne', div_self hq.ne']
    norm_num

/-- Claim C8 (witness): the ten-item run announced by a 10-nodes line. -/
theorem c8_witness :
    ((0 : ℕ) < 10 ∧ trackerFindNodes "(10 nodes)" = some 10 ∧
      (["1: a", "2: b", "3: c", "4: d", "5: e",
        "6: f", "7: g", "8: h", "9: i", "10: j"] : List String).length = 10) ∧
    (trackerStatesE ⟨0, none⟩ ("(10 nodes)" ::
        ["1: a", "2: b", "3: c", "4: d", "5: e",
         "6: f", "7: g", "8: h", "9: i", "10: j"]) = Except.ok
      ((List.range (10 + 1)).map (fun k => (⟨k, some ((10 : ℕ) : ℚ)⟩ : PBState))) ∧
    List.Chain' (fun a b => pbPercentQ a ≤ pbPercentQ b)
      ((List.range (10 + 1)).map (fun k => (⟨k, some ((10 : ℕ) : ℚ)⟩ : PBState))) ∧
    (((List.range (10 + 1)).map (fun k => (⟨k, some ((10 : ℕ) : ℚ)⟩ : PBState))).map
      pbPercentQ).getLast? = some 100 ∧
    fmt2 100 = "100.00") :=
  ⟨⟨by decide, by decide, by decide⟩,
   c8_monotone_percent 10 (by decide) "(10 nodes)"
     ["1: a", "2: b", "3: c", "4: d", "5: e",
      "6: f", "7: g", "8: h", "9: i", "10: j"] (by decide) (by decide)⟩

/-- Claim C6: the download, extraction and doxygen steps each delete their
stale artifact when it exists and the clean flag is set, before regenerating
it; the docset generation step, however, only logs the deletion message and
removes nothing, neither the docset directory as a file nor as a tree,
before regenerating over the existing docset.  This contradicts both the
claim and the logged message of the step itself, so the docset branch is a
code bug rather than a spec error. -/
theorem c6_clean_behavior :
    FsAction.removeFile "llvm-8.0.0.src.tar.xz" ∈
      (download_llvm_tarball false true "8.0.0" true).1 ∧
    FsAction.removeTree "llvm-8.0.0.src" ∈
      (extract_llvm_tarball false true "8.0.0" "llvm-8.0.0.src.tar.xz" true).1 ∧
    FsAction.removeTree "doxygen/html" ∈
      (run_doxygen false true "/usr/bin/doxygen" "doxygen.cfg" true).1 ∧
    FsAction.log "Deleting LLVM.docset..." "cyan" ∈
      (generate_docset_from_html false true true).1 ∧
    (∀ a ∈ (generate_docset_from_html false true true).1,
      a ≠ FsAction.removeFile "LLVM.docset" ∧ a ≠ FsAction.removeTree "LLVM.docset") ∧
    (∀ quiet : Bool,
      download_llvm_tarball quiet false "8.0.0" true =
        (logIf quiet "Using existing tarball llvm-8.0.0.src.tar.xz..." "cyan",
          "llvm-8.0.0.src.tar.xz") ∧
      generate_docset_from_html quiet false true =
        (logIf quiet "Using existing docset in LLVM.docset..." "cyan", "LLVM.docset")) := by
  refine ⟨by decide, by decide, by decide, by decide, by decide, ?_⟩
  intro quiet
  exact ⟨rfl, rfl⟩

/-- Claim C7: the top-level dispatch exits with status 1 and a diagnostic on
the error stream when the generator construction fails with a tool-not-found
message or when a subprocess fails, and with status 0 and no diagnostic on
success; a tool that is neither provided nor found by which resolves to a
tool-not-found error, and a non-zero docsetutil exit code raises the
subprocess failure carrying the command and the code. -/
theorem c7_exit_codes :
    (∀ (msg : String) (runRes : Except (List String × ℤ) Unit) (v : Bool),
      (pyMain (Except.error msg) runRes v).1 = 1 ∧
        (pyMain (Except.error msg) runRes v).2 = [msg]) ∧
    (∀ (cmd : List String) (code : ℤ) (v : Bool),
      (pyMain (Except.ok ()) (Except.error (cmd, code)) v).1 = 1 ∧
        (pyMain (Except.ok ()) (Except.error (cmd, code)) v).2 ≠ []) ∧
    (∀ v : Bool, pyMain (Except.ok ()) (Except.ok ()) v = (0, [])) ∧
    (∀ (pathExists : String → Bool) (err : String),
      resolveTool none none pathExists err = Except.error err) ∧
    (∀ (dsu docset : String) (code : ℤ), code ≠ 0 →
      runDocsetutilCheck dsu docset code = Except.error ([dsu, "index", docset], code)) ∧
    (∀ dsu docset : String, runDocsetutilCheck dsu docset 0 = Except.ok ()) := by
  refine ⟨?_, ?_, ?_, ?_, ?_, ?_⟩
  · intro msg runRes v
    exact ⟨rfl, rfl⟩
  · intro cmd code v
    refine ⟨rfl, ?_⟩
    simp [pyMain]
  · intro v
    rfl
  · intro pathExists err
    rfl
  · intro dsu docset code hc
    unfold runDocsetutilCheck
    rw [if_neg hc]
  · intro dsu docset
    rfl

/-- Claim C7 (witness): a docsetutil run that exits with code 3 raises the
subprocess failure with its command line and code. -/
theorem c7_witness :
    ((3 : ℤ) ≠ 0) ∧
    runDocsetutilCheck "DocSetUtil/Developer/usr/bin/docsetutil" "LLVM.docset" 3 =
      Except.error (["DocSetUtil/Developer/usr/bin/docsetutil", "index", "LLVM.docset"], 3) :=
  ⟨by decide,
   c7_exit_codes.2.2.2.2.1 "DocSetUtil/Developer/usr/bin/docsetutil" "LLVM.docset" 3
     (by decide)⟩
